import Mathlib

/-!
Shallow embedding of the fake-store CLI (`src/index.js`).

The program is a single-file Node.js CLI: `apiRequest` wraps one `fetch`
call against a fixed base URL and normalizes the reply, and `main`
parses `process.argv`, validates the command per verb, and drives
`apiRequest`.  The embedding renders both as pure Lean functions:

* the network is an oracle `Remote : HttpCall → FetchOutcome` supplied
  as a parameter; every branch records the list of HTTP calls it issues;
* console output (`console.log` / `console.error`) is recorded as a
  list of `Out` events, one event per logical message of the source;
* JavaScript numbers produced by `parseFloat` / `parseInt` are modelled
  exactly: `parseFloat` yields `JsNum` (NaN, signed infinity, or the
  exact decimal value written as mantissa·10^exp; IEEE-754 rounding of
  that exact value is abstracted away, which is faithful for every
  claim under study since none depends on rounding);
* JavaScript string helpers used by the source (`toUpperCase`,
  `startsWith`, `split`, `indexOf`) are re-implemented over `List Char`
  with their ECMAScript semantics (case mapping restricted to ASCII,
  which covers every literal the program compares against).
-/

/-! ### Character and string primitives (ECMAScript semantics) -/

/-- JavaScript whitespace accepted by `parseFloat` / `parseInt` trimming
(ASCII portion; the exotic Unicode space code points are irrelevant to
the CLI's inputs and to every claim). -/
def isWsCh (c : Char) : Bool :=
  c == ' ' || c == '\t' || c == '\n' || c == '\r' || c == '\x0b' || c == '\x0c'

def isDigitCh (c : Char) : Bool := '0' ≤ c && c ≤ '9'

def digitVal (c : Char) : Nat := c.toNat - '0'.toNat

/-- Longest prefix of decimal digits, together with the rest. -/
def takeDigits : List Char → List Char × List Char
  | [] => ([], [])
  | c :: cs =>
    if isDigitCh c then
      let r := takeDigits cs
      (c :: r.1, r.2)
    else ([], c :: cs)

def digitsToNat (l : List Char) : Nat :=
  l.foldl (fun a c => a * 10 + digitVal c) 0

/-- `startsWithCh s pre` is ECMAScript `s.startsWith(pre)` over char lists. -/
def startsWithCh : List Char → List Char → Bool
  | _, [] => true
  | [], _ :: _ => false
  | c :: cs, p :: ps => c == p && startsWithCh cs ps

/-- `containsSub s sub` is ECMAScript `s.indexOf(sub) !== -1`. -/
def containsSub : List Char → List Char → Bool
  | [], sub => startsWithCh [] sub
  | c :: cs, sub => startsWithCh (c :: cs) sub || containsSub cs sub

/-- ECMAScript `s.split(sep)` for a single-character separator. -/
def splitCh (sep : Char) : List Char → List (List Char)
  | [] => [[]]
  | c :: cs =>
    if c == sep then [] :: splitCh sep cs
    else
      match splitCh sep cs with
      | [] => [[c]]
      | h :: t => (c :: h) :: t

/-- ASCII upper-casing of one character (`String.prototype.toUpperCase`
restricted to ASCII; all verbs the dispatcher compares against are
ASCII literals). -/
def charUp (c : Char) : Char :=
  if 'a' ≤ c && c ≤ 'z' then Char.ofNat (c.toNat - 32) else c

/-- `command.toUpperCase()` from the source. -/
def jsToUpper (s : String) : String := ⟨s.data.map charUp⟩

/-- `path.startsWith(pre)` from the source. -/
def jsStartsWith (s pre : String) : Bool := startsWithCh s.data pre.data

/-- `path.split('/')[1]` from the source: second segment of the split,
defaulting to the empty string (the source only consults this value on
paths that contain a `/`, where index 1 exists). -/
def segGetD1 (path : String) : String := ⟨(splitCh '/' path.data).getD 1 []⟩

/-! ### JavaScript numbers: `parseFloat` and `parseInt` -/

/-- A JavaScript number as produced by `parseFloat`: NaN, a signed
infinity, or the exact decimal value `mant · 10 ^ exp10` that the
accepted literal denotes (IEEE-754 rounding abstracted). -/
inductive JsNum where
  | nan
  | posInf
  | negInf
  | finite (mant : Int) (exp10 : Int)
deriving DecidableEq, Repr

def JsNum.isNaN : JsNum → Bool
  | .nan => true
  | _ => false

def JsNum.isFinite : JsNum → Bool
  | .finite _ _ => true
  | _ => false

/-- Leading-sign stripping shared by `parseFloat` / `parseInt`:
returns (isNegative, rest). -/
def stripSign : List Char → Bool × List Char
  | '-' :: r => (true, r)
  | '+' :: r => (false, r)
  | l => (false, l)

/-- Exponent part of a decimal literal: `e`/`E`, optional sign, digits.
Returns 0 when absent or malformed (ECMAScript takes the longest valid
prefix, so a dangling `e` is simply not part of the number). -/
def parseExpPart : List Char → Int
  | c :: rest =>
    if c == 'e' || c == 'E' then
      match rest with
      | '+' :: r2 => (digitsToNat (takeDigits r2).1 : Int)
      | '-' :: r2 => -(digitsToNat (takeDigits r2).1 : Int)
      | r2 => (digitsToNat (takeDigits r2).1 : Int)
    else 0
  | [] => 0

/-- ECMAScript `parseFloat`: trim whitespace, optional sign, then either
an `Infinity` literal or the longest decimal-literal prefix
(`digits [. digits] [exponent]` or `. digits [exponent]`); NaN when no
prefix parses.  (One divergence from IEEE doubles: literals whose value
overflows the double range, e.g. `1e999`, stay exact here instead of
becoming Infinity; no claim exercises such inputs.) -/
def parseFloatJS (s : String) : JsNum :=
  let l := s.data.dropWhile isWsCh
  let sl := stripSign l
  let neg := sl.1
  let l2 := sl.2
  if startsWithCh l2 ("Infinity".data) then
    if neg then JsNum.negInf else JsNum.posInf
  else
    let ipr := takeDigits l2
    let ip := ipr.1
    let fpr :=
      match ipr.2 with
      | '.' :: rest => takeDigits rest
      | other => ([], other)
    let fp := fpr.1
    if ip = [] ∧ fp = [] then JsNum.nan
    else
      let e := parseExpPart fpr.2
      let mant : Nat := digitsToNat ip * 10 ^ fp.length + digitsToNat fp
      let m : Int := if neg then -(mant : Int) else (mant : Int)
      JsNum.finite m (e - (fp.length : Int))

def isHexDigitCh (c : Char) : Bool :=
  ('0' ≤ c && c ≤ '9') || ('a' ≤ c && c ≤ 'f') || ('A' ≤ c && c ≤ 'F')

def hexDigitVal (c : Char) : Nat :=
  if '0' ≤ c && c ≤ '9' then c.toNat - '0'.toNat
  else if 'a' ≤ c && c ≤ 'f' then c.toNat - 'a'.toNat + 10
  else c.toNat - 'A'.toNat + 10

def takeHexDigits : List Char → List Char × List Char
  | [] => ([], [])
  | c :: cs =>
    if isHexDigitCh c then
      let r := takeHexDigits cs
      (c :: r.1, r.2)
    else ([], c :: cs)

def hexDigitsToNat (l : List Char) : Nat :=
  l.foldl (fun a c => a * 16 + hexDigitVal c) 0

/-- ECMAScript `parseInt` with no radix argument: trim whitespace,
optional sign, `0x`/`0X` switches to hexadecimal, then the longest
digit prefix; `none` models NaN (no digits). -/
def parseIntJS (s : String) : Option Int :=
  let l := s.data.dropWhile isWsCh
  let sl := stripSign l
  let neg := sl.1
  let signed : Nat → Option Int := fun n =>
    some (if neg then -(n : Int) else (n : Int))
  match sl.2 with
  | '0' :: 'x' :: rest =>
    let d := (takeHexDigits rest).1
    if d = [] then none else signed (hexDigitsToNat d)
  | '0' :: 'X' :: rest =>
    let d := (takeHexDigits rest).1
    if d = [] then none else signed (hexDigitsToNat d)
  | other =>
    let d := (takeDigits other).1
    if d = [] then none else signed (digitsToNat d)

/-! ### JSON values and JavaScript object operations -/

/-- A parsed JSON value (the result of `response.json()`, and the shape
of request payloads).  `obj` lists the own enumerable string keys in
order; a parsed JavaScript object has pairwise-distinct keys. -/
inductive Json where
  | null
  | bool (b : Bool)
  | num (n : JsNum)
  | str (s : String)
  | arr (elems : List Json)
  | obj (fields : List (String × Json))

/-- JavaScript truthiness of a parsed JSON value (the `productData &&`
guard of the source). -/
def Json.truthy : Json → Bool
  | .null => false
  | .bool b => b
  | .num n =>
    match n with
    | .nan => false
    | .finite m _ => !(m == 0)
    | _ => true
  | .str s => !(s == "")
  | .arr _ => true
  | .obj _ => true

/-- `typeof v === 'object'` for a parsed JSON value (`null` and arrays
included, as in JavaScript). -/
def Json.typeofObject : Json → Bool
  | .null => true
  | .arr _ => true
  | .obj _ => true
  | _ => false

/-- First binding of a key in an object's field list (parsed JavaScript
objects carry each key at most once). -/
def lookupField (f : String) : List (String × Json) → Option Json
  | [] => none
  | kv :: rest => if kv.1 = f then some kv.2 else lookupField f rest

/-- The named (non-symbol) properties of `Object.prototype`, which every
object produced by `JSON.parse` inherits: the `in` operator finds them
on any parsed object. -/
def objectProtoKeys : List String :=
  ["constructor", "hasOwnProperty", "isPrototypeOf", "propertyIsEnumerable",
   "toLocaleString", "toString", "valueOf", "__proto__",
   "__defineGetter__", "__defineSetter__", "__lookupGetter__", "__lookupSetter__"]

/-- The named (non-symbol) properties of `Array.prototype`, inherited by
every parsed array (which further inherits `Object.prototype`). -/
def arrayProtoKeys : List String :=
  ["length", "constructor", "at", "concat", "copyWithin", "entries", "every",
   "fill", "filter", "find", "findIndex", "findLast", "findLastIndex", "flat",
   "flatMap", "forEach", "includes", "indexOf", "join", "keys", "lastIndexOf",
   "map", "pop", "push", "reduce", "reduceRight", "reverse", "shift", "slice",
   "some", "sort", "splice", "toLocaleString", "toReversed", "toSorted",
   "toSpliced", "toString", "unshift", "values", "with"]

/-- The `field in productData` test of the source.  JavaScript `in`
walks the prototype chain: on a parsed plain object it finds the own
keys *and* the `Object.prototype` members (so `'toString' in obj` is
true for every parsed object); on a parsed array it finds the index
strings, `"length"`, and the `Array.prototype` / `Object.prototype`
members.  Primitives are unreachable here because the source guards
with `typeof === 'object'`, so they are mapped to `false` (real `in`
would throw a TypeError on them). -/
def jsIn (f : String) : Json → Bool
  | .obj kvs => kvs.any (fun kv => kv.1 == f) || decide (f ∈ objectProtoKeys)
  | .arr xs =>
    (List.range xs.length).any (fun i => toString i == f) || f == "length"
      || decide (f ∈ arrayProtoKeys) || decide (f ∈ objectProtoKeys)
  | _ => false

/-- The result of JavaScript property access `productData[field]`:
`undefined`, an own data value (JSON data), or a member inherited from
the prototype chain.  An inherited member is a host object — a built-in
function such as `toString`, or, for the `__proto__` accessor, the
prototype object itself — not JSON data, so it is represented by the
name under which it was found; own properties shadow the chain, so the
inherited case arises only when the name is not an own key. -/
inductive JsProp where
  | undefined
  | val (j : Json)
  | inherited (name : String)

/-- Property access `productData[field]` with prototype-chain lookup,
mirroring `jsIn`. -/
def jsGet (j : Json) (f : String) : JsProp :=
  match j with
  | .obj kvs =>
    match lookupField f kvs with
    | some v => .val v
    | none => if f ∈ objectProtoKeys then .inherited f else .undefined
  | .arr xs =>
    if f = "length" then .val (.num (.finite (xs.length : Int) 0))
    else
      match (List.range xs.length).findSome? fun i =>
          if toString i = f then xs.get? i else none with
      | some v => .val v
      | none =>
        if f ∈ arrayProtoKeys ∨ f ∈ objectProtoKeys then .inherited f else .undefined
  | _ => .undefined

/-- `Object.keys(productData)`: own enumerable keys in order. -/
def jsKeys : Json → List String
  | .obj kvs => kvs.map Prod.fst
  | .arr xs => (List.range xs.length).map toString
  | _ => []

/-! ### The HTTP layer: `apiRequest` -/

/-- `const API_BASE_URL = 'https://fakestoreapi.com'`. -/
def API_BASE_URL : String := "https://fakestoreapi.com"

/-- One outgoing HTTP call as assembled for `fetch(url, options)`.
`body` holds the payload object that the source serializes with
`JSON.stringify`; the serialization to a raw string is abstracted (no
claim inspects the serialized text), while the *presence* of the body
mirrors the source exactly. -/
structure HttpCall where
  url : String
  method : String
  headers : List (String × String)
  body : Option Json

/-- The reply side of one `fetch`: status line, the `content-type`
header (`none` when absent), the raw body text (used for error
reporting), and the body parsed as JSON (`none` when `response.json()`
would reject). -/
structure HttpResponse where
  status : Nat
  statusText : String
  contentType : Option String
  bodyText : String
  parsedJson : Option Json

/-- What the network does with one call: a transport failure (`fetch`
rejects) or a reply. -/
inductive FetchOutcome where
  | networkError (message : String)
  | response (r : HttpResponse)

/-- The remote service as an oracle: one outcome per call. -/
def Remote : Type := HttpCall → FetchOutcome

/-- The errors `apiRequest` can throw: a non-success HTTP status
(status, status text, raw body — `Error ${status}: ${statusText}.
Body: ${errorBody}` in the source), a transport failure, or a JSON
parse failure of a successful reply. -/
inductive ApiError where
  | remoteError (status : Nat) (statusText : String) (bodyText : String)
  | transportError (message : String)
  | jsonParseError
deriving DecidableEq, Repr

/-- A successful `apiRequest` outcome, tagged by the branch that
produced it: the reply parsed as JSON, or the synthetic status message
built when the reply is not JSON. -/
inductive ApiResult where
  | jsonValue (value : Json)
  | statusMessage (text : String)

def ApiResult.isJsonValue : ApiResult → Bool
  | .jsonValue _ => true
  | _ => false

def ApiResult.isStatusMessage : ApiResult → Bool
  | .statusMessage _ => true
  | _ => false

/-- The JavaScript value `apiRequest` actually returns to `main`: the
parsed JSON itself, or the literal object
`{ message: 'Operation successful. Status: ...' }`. -/
def ApiResult.toJs : ApiResult → Json
  | .jsonValue v => v
  | .statusMessage t => .obj [("message", .str t)]

/-- `response.ok`: status in the 2xx range. -/
def responseOk (r : HttpResponse) : Bool := 200 ≤ r.status && r.status ≤ 299

/-- The source's JSON-reply test:
`contentType && contentType.indexOf("application/json") !== -1`. -/
def hasJsonCT : Option String → Bool
  | none => false
  | some s => containsSub s.data ("application/json".data)

/-- The `options` assembly of `apiRequest`: headers start empty; only
when a body is supplied *and* the method is POST or PUT does the call
gain the JSON content-type header and the body. -/
def buildCall (endpoint method : String) (body : Option Json) : HttpCall :=
  if body.isSome ∧ (method = "POST" ∨ method = "PUT") then
    { url := API_BASE_URL ++ endpoint, method := method,
      headers := [("Content-Type", "application/json")], body := body }
  else
    { url := API_BASE_URL ++ endpoint, method := method,
      headers := [], body := none }

/-- `apiRequest(endpoint, method, body)`: builds the call, consults the
remote, and normalizes the reply.  Returns the call it issued together
with the outcome; `Except.error` models a thrown exception (the source
logs and re-throws, so errors propagate to `main`'s catch). -/
def apiRequest (remote : Remote) (endpoint method : String) (body : Option Json) :
    HttpCall × Except ApiError ApiResult :=
  let call := buildCall endpoint method body
  (call,
    match remote call with
    | .networkError msg => .error (.transportError msg)
    | .response r =>
      if responseOk r then
        if hasJsonCT r.contentType then
          match r.parsedJson with
          | some j => .ok (.jsonValue j)
          | none => .error .jsonParseError
        else
          .ok (.statusMessage ("Operation successful. Status: " ++ toString r.status))
      else
        .error (.remoteError r.status r.statusText r.bodyText))

/-! ### The command dispatcher: `main` -/

/-- One console message of `main`, carrying exactly the data the source
interpolates into it (multi-line messages of one logical report are a
single event). -/
inductive Out where
  /-- The usage help printed when command or path is missing/empty. -/
  | help
  /-- `Productos obtenidos:` with the collection value. -/
  | gotProducts (result : Json)
  /-- `Producto obtenido:` with the single-resource value. -/
  | gotProduct (result : Json)
  /-- `Campo '<field>' del producto <id>:` with the projected value
  (own data value, or an inherited prototype member). -/
  | fieldShown (field productId : String) (value : JsProp)
  /-- `Error: El campo '<field>' no existe...` plus the
  `Campos disponibles:` key listing. -/
  | fieldMissing (field productId : String) (keys : List String)
  /-- `Respuesta de la API para <path> (posiblemente producto no
  encontrado):` with the non-object value. -/
  | nonObject (path : String) (data : Json)
  /-- `Ruta no válida para GET: ...`. -/
  | invalidGetRoute (path : String)
  /-- `Para POST products, se requieren al menos: <title> <price>
  <category>.` plus its example line. -/
  | postArgsError
  /-- `El precio debe ser un número válido.` -/
  | priceError
  /-- `Producto creado:` with the creation reply. -/
  | productCreated (result : Json)
  /-- `Ruta no válida para POST: ...`. -/
  | invalidPostRoute (path : String)
  /-- `Para DELETE products, se requiere un ID numérico válido: ...`. -/
  | deleteIdError
  /-- `Producto con ID <id> (supuestamente) eliminado:` with the reply. -/
  | productDeleted (productId : String) (result : Json)
  /-- `Ruta no válida para DELETE: ...`. -/
  | invalidDeleteRoute (path : String)
  /-- `Comando no reconocido: ...`. -/
  | unknownCommand (command : String)
  /-- `Ocurrió un error en la operación principal:` — the top-level
  catch showing a propagated `apiRequest` error. -/
  | mainError (e : ApiError)

/-- The observable effect of one invocation: the HTTP calls issued, in
order, and the console messages produced. -/
structure RunResult where
  calls : List HttpCall
  outs : List Out

/-- The help screen: no call, one usage message. -/
def usage : RunResult := { calls := [], outs := [Out.help] }

/-- `description || 'default'` on a possibly-undefined string argument:
JavaScript `||` substitutes the default when the operand is `undefined`
(argument absent) *or* the empty string (both are falsy). -/
def jsOrStr (o : Option String) (d : String) : String :=
  match o with
  | none => d
  | some s => if s = "" then d else s

/-- The default description literal of the source. -/
def DEFAULT_DESCRIPTION : String := "Default product description"

/-- The default image literal of the source. -/
def DEFAULT_IMAGE : String := "https://calculo-intereses.onrender.com"

/-- The `switch (method)` body of `main`, for a present, non-empty
command and path.  `command` is upper-cased first; `endpoint` is
`'/' + path`.  Each branch that reaches `apiRequest` contributes that
one call to `calls` whether the call succeeds or throws (a thrown error
is the single `mainError` output, via `main`'s catch). -/
def dispatch (remote : Remote) (command path : String) (args : List String) : RunResult :=
  let method := jsToUpper command
  let endpoint := "/" ++ path
  if method = "GET" then
    if path = "products" ∧ args = [] then
      let cr := apiRequest remote endpoint "GET" none
      { calls := [cr.1],
        outs := [match cr.2 with
                 | .ok r => .gotProducts r.toJs
                 | .error e => .mainError e] }
    else if jsStartsWith path "products/" then
      let cr := apiRequest remote endpoint "GET" none
      { calls := [cr.1],
        outs := [match cr.2 with
                 | .error e => .mainError e
                 | .ok r =>
                   let productData := r.toJs
                   match args with
                   | [] => .gotProduct productData
                   | fieldToExtract :: _ =>
                     let productId := segGetD1 path
                     if productData.truthy && productData.typeofObject
                         && jsIn fieldToExtract productData then
                       .fieldShown fieldToExtract productId (jsGet productData fieldToExtract)
                     else if productData.truthy && productData.typeofObject then
                       .fieldMissing fieldToExtract productId (jsKeys productData)
                     else
                       .nonObject path productData] }
    else
      { calls := [], outs := [.invalidGetRoute path] }
  else if method = "POST" then
    if path = "products" then
      if args.length < 3 then
        { calls := [], outs := [.postArgsError] }
      else
        let title := args.getD 0 ""
        let priceStr := args.getD 1 ""
        let category := args.getD 2 ""
        let description := args.get? 3
        let image := args.get? 4
        let price := parseFloatJS priceStr
        if price.isNaN then
          { calls := [], outs := [.priceError] }
        else
          let newProduct : Json := .obj
            [("title", .str title),
             ("price", .num price),
             ("category", .str category),
             ("description", .str (jsOrStr description DEFAULT_DESCRIPTION)),
             ("image", .str (jsOrStr image DEFAULT_IMAGE))]
          let cr := apiRequest remote endpoint "POST" (some newProduct)
          { calls := [cr.1],
            outs := [match cr.2 with
                     | .ok r => .productCreated r.toJs
                     | .error e => .mainError e] }
    else
      { calls := [], outs := [.invalidPostRoute path] }
  else if method = "DELETE" then
    if jsStartsWith path "products/" then
      let productId := segGetD1 path
      if productId = "" ∨ parseIntJS productId = none then
        { calls := [], outs := [.deleteIdError] }
      else
        let cr := apiRequest remote endpoint "DELETE" none
        { calls := [cr.1],
          outs := [match cr.2 with
                   | .ok r => .productDeleted productId r.toJs
                   | .error e => .mainError e] }
    else
      { calls := [], outs := [.invalidDeleteRoute path] }
  else
    { calls := [], outs := [.unknownCommand command] }

/-- `main`, as a function of the remote oracle and of
`process.argv.slice(2)` (the tokens after `node index.js`).  The
destructuring `const [,, command, path, ...args]` leaves `command` /
`path` undefined when absent; `if (!command || !path)` prints the help
and returns — empty strings are falsy and take the same branch. -/
def mainRun (remote : Remote) (argv : List String) : RunResult :=
  match argv with
  | command :: path :: args =>
    if command = "" ∨ path = "" then usage
    else dispatch remote command path args
  | _ => usage

/-- The acceptance condition of the dispatcher, collected from the
branch guards: exactly the invocations on which `main` reaches an
`apiRequest` call (used to state the one-call-per-invocation claim). -/
def wellFormed (command path : String) (args : List String) : Bool :=
  let method := jsToUpper command
  if method = "GET" then
    if path = "products" ∧ args = [] then true
    else if jsStartsWith path "products/" then true
    else false
  else if method = "POST" then
    if path = "products" then
      if args.length < 3 then false
      else if (parseFloatJS (args.getD 1 "")).isNaN then false
      else true
    else false
  else if method = "DELETE" then
    if jsStartsWith path "products/" then
      if segGetD1 path = "" ∨ parseIntJS (segGetD1 path) = none then false
      else true
    else false
  else false

/-! ### Stub remotes used to evaluate concrete invocations -/

/-- A stub remote answering every call with a successful JSON reply
whose body is a small product object. -/
def rmJson : Remote := fun _ => .response
  { status := 200, statusText := "OK",
    contentType := some "application/json; charset=utf-8",
    bodyText := "",
    parsedJson := some (.obj [("id", .num (.finite 1 0)), ("title", .str "X")]) }

/-- A stub remote answering every call with a successful reply carrying
no JSON content type (as a DELETE reply may). -/
def rmPlain : Remote := fun _ => .response
  { status := 200, statusText := "OK", contentType := none,
    bodyText := "", parsedJson := none }

/-! ### Helper lemmas -/

theorem strData_append (a b : String) : (a ++ b).data = a.data ++ b.data := rfl

theorem str_append_empty (s : String) : s ++ "" = s := by
  cases s with
  | mk d => exact congrArg String.mk (List.append_nil d)

theorem products_slash_ne_empty (s : String) : "products/" ++ s ≠ "" := by
  intro h
  have h2 : ("products/" ++ s).data = ("" : String).data := congrArg String.data h
  rw [strData_append] at h2
  simp at h2

theorem jsStartsWith_products (s : String) :
    jsStartsWith ("products/" ++ s) "products/" = true := by
  show startsWithCh (("products/" ++ s).data) ("products/".data) = true
  rw [strData_append]
  show startsWithCh ('p' :: 'r' :: 'o' :: 'd' :: 'u' :: 'c' :: 't' :: 's' :: '/' :: s.data)
    ('p' :: 'r' :: 'o' :: 'd' :: 'u' :: 'c' :: 't' :: 's' :: '/' :: []) = true
  simp [startsWithCh]

theorem parseIntJS_empty : parseIntJS "" = none := rfl

theorem jsNum_isNaN_iff (n : JsNum) : n.isNaN = true ↔ n = .nan := by
  cases n <;> simp [JsNum.isNaN]

theorem jsIn_obj_iff (f : String) (kvs : List (String × Json)) :
    jsIn f (.obj kvs) = true ↔
      (f ∈ jsKeys (.obj kvs) ∨ f ∈ objectProtoKeys) := by
  simp [jsIn, jsKeys, List.any_eq_true, List.mem_map]

theorem lookupField_eq_none (f : String) (kvs : List (String × Json))
    (h : f ∉ kvs.map Prod.fst) : lookupField f kvs = none := by
  induction kvs with
  | nil => rfl
  | cons kv rest ih =>
    simp only [List.map_cons, List.mem_cons] at h
    push_neg at h
    simp only [lookupField]
    rw [if_neg (fun he => h.1 he.symm)]
    exact ih h.2

theorem jsGet_obj_inherited (f : String) (kvs : List (String × Json))
    (hown : f ∉ jsKeys (.obj kvs)) (hproto : f ∈ objectProtoKeys) :
    jsGet (.obj kvs) f = .inherited f := by
  simp only [jsGet]
  rw [lookupField_eq_none f kvs hown]
  rw [if_pos hproto]

/-! ### Claim theorems -/

/-- C6: for every HTTP call built by `apiRequest`, the body is present
exactly when a payload is supplied and the method is POST or PUT, and
the `Content-Type: application/json` header is present exactly under
the same condition (and it is the only header ever set); GET and DELETE
calls never carry a body or headers, even if a payload is supplied. -/
theorem c6_body_and_header (endpoint method : String) (payload : Option Json) :
    ((buildCall endpoint method payload).body ≠ none ↔
      (payload ≠ none ∧ (method = "POST" ∨ method = "PUT"))) ∧
    ((buildCall endpoint method payload).headers =
        [("Content-Type", "application/json")] ↔
      (payload ≠ none ∧ (method = "POST" ∨ method = "PUT"))) ∧
    ((buildCall endpoint method payload).headers = [("Content-Type", "application/json")] ∨
      (buildCall endpoint method payload).headers = []) ∧
    ((method = "GET" ∨ method = "DELETE") →
      (buildCall endpoint method payload).body = none ∧
      (buildCall endpoint method payload).headers = []) := by
  by_cases h : payload.isSome ∧ (method = "POST" ∨ method = "PUT")
  · have hb : (buildCall endpoint method payload).body = payload := by
      unfold buildCall; rw [if_pos h]
    have hh : (buildCall endpoint method payload).headers =
        [("Content-Type", "application/json")] := by
      unfold buildCall; rw [if_pos h]
    have hcond : payload ≠ none ∧ (method = "POST" ∨ method = "PUT") :=
      ⟨Option.isSome_iff_ne_none.mp h.1, h.2⟩
    refine ⟨?_, ?_, Or.inl hh, ?_⟩
    · rw [hb]
      exact ⟨fun _ => hcond, fun hc => hc.1⟩
    · rw [hh]
      exact ⟨fun _ => hcond, fun _ => rfl⟩
    · rintro (hg | hg) <;> rcases h.2 with hp | hp <;> rw [hg] at hp <;>
        exact absurd hp (by decide)
  · have hb : (buildCall endpoint method payload).body = none := by
      unfold buildCall; rw [if_neg h]
    have hh : (buildCall endpoint method payload).headers = [] := by
      unfold buildCall; rw [if_neg h]
    have hcond : ¬ (payload ≠ none ∧ (method = "POST" ∨ method = "PUT")) := fun hc =>
      h ⟨Option.ne_none_iff_isSome.mp hc.1, hc.2⟩
    refine ⟨?_, ?_, Or.inr hh, fun _ => ⟨hb, hh⟩⟩
    · rw [hb]
      exact ⟨fun hc => absurd rfl hc, fun hc => absurd hc hcond⟩
    · rw [hh]
      constructor
      · intro heq
        exact absurd heq (by simp)
      · intro hc
        exact absurd hc hcond

/-- Witness for C6 at a concrete input: a GET call with a payload
supplied still carries no body and no headers (in particular, no
`Content-Type` header). -/
theorem c6_witness :
    (buildCall "/products/7" "GET" (some (Json.obj []))).body = none ∧
    (buildCall "/products/7" "GET" (some (Json.obj []))).headers = [] :=
  (c6_body_and_header "/products/7" "GET" (some (Json.obj []))).2.2.2 (Or.inl rfl)

/-- C7: a successful reply whose content-type does not name JSON yields
a `statusMessage` result, and the message text embeds the numeric
status code of the reply. -/
theorem c7_status_message (rm : Remote) (endpoint method : String) (payload : Option Json)
    (r : HttpResponse)
    (hresp : rm (buildCall endpoint method payload) = .response r)
    (hok : responseOk r = true)
    (hct : hasJsonCT r.contentType = false) :
    ∃ msg, (apiRequest rm endpoint method payload).2 = .ok (.statusMessage msg) ∧
      ∃ a b, msg = a ++ toString r.status ++ b := by
  refine ⟨"Operation successful. Status: " ++ toString r.status, ?_,
    "Operation successful. Status: ", "", (str_append_empty _).symm⟩
  simp only [apiRequest]
  rw [hresp]
  simp [hok, hct]

/-- Witness for C7 at a concrete input: a 200 reply with no
content-type header produces the status message embedding 200. -/
theorem c7_witness :
    ∃ msg, (apiRequest rmPlain "/products/7" "DELETE" none).2 =
        .ok (.statusMessage msg) ∧
      ∃ a b, msg = a ++ toString (200 : Nat) ++ b :=
  c7_status_message rmPlain "/products/7" "DELETE" none
    { status := 200, statusText := "OK", contentType := none,
      bodyText := "", parsedJson := none }
    rfl rfl rfl

/-- C9: every successful `apiRequest` outcome is exactly one of the two
kinds `jsonValue` or `statusMessage` — never both, never neither (the
tagged union `ApiResult` mirrors the two return statements of the
source's success path, so the invariant holds for every produced
result). -/
theorem c9_exactly_one_kind (rm : Remote) (endpoint method : String) (payload : Option Json)
    (r : ApiResult) (_h : (apiRequest rm endpoint method payload).2 = .ok r) :
    (r.isJsonValue = true ∧ r.isStatusMessage = false) ∨
    (r.isJsonValue = false ∧ r.isStatusMessage = true) := by
  cases r
  · exact Or.inl ⟨rfl, rfl⟩
  · exact Or.inr ⟨rfl, rfl⟩

/-- Witness for C9 at a concrete input: the JSON-reply stub produces a
`jsonValue` result, which is of exactly one kind. -/
theorem c9_witness :
    ((ApiResult.jsonValue (.obj [("id", .num (.finite 1 0)), ("title", .str "X")])).isJsonValue
        = true ∧
      (ApiResult.jsonValue (.obj [("id", .num (.finite 1 0)),
        ("title", .str "X")])).isStatusMessage = false) ∨
    ((ApiResult.jsonValue (.obj [("id", .num (.finite 1 0)), ("title", .str "X")])).isJsonValue
        = false ∧
      (ApiResult.jsonValue (.obj [("id", .num (.finite 1 0)),
        ("title", .str "X")])).isStatusMessage = true) :=
  c9_exactly_one_kind rmJson "/products" "GET" none
    (.jsonValue (.obj [("id", .num (.finite 1 0)), ("title", .str "X")])) rfl

/-- C10: when the verb token or the path token is present but empty,
the program prints the usage help and returns with no network request —
the same outcome as when fewer than two tokens are present. -/
theorem c10_blank_token_usage (rm : Remote) (c p : String) (rest : List String)
    (h : c = "" ∨ p = "") :
    mainRun rm (c :: p :: rest) = usage ∧
    mainRun rm (c :: p :: rest) = mainRun rm [] := by
  have e1 : mainRun rm (c :: p :: rest) =
      if c = "" ∨ p = "" then usage else dispatch rm c p rest := rfl
  rw [e1, if_pos h]
  exact ⟨rfl, rfl⟩

/-- Witness for C10 at a concrete input: an empty verb token with a
valid path prints the help, issuing no call. -/
theorem c10_witness :
    mainRun rmJson ("" :: "products" :: []) = usage ∧
    mainRun rmJson ("" :: "products" :: []) = mainRun rmJson [] :=
  c10_blank_token_usage rmJson "" "products" [] (Or.inl rfl)

/-- C1 counterexample: the claim says that when the fetched object does
not contain `<field>` among its own keys, the system reports
FieldNotFound; but `toString` is not an own key of the fetched product,
yet JavaScript `in` finds the inherited `Object.prototype.toString`, so
`GET products/7 toString` takes the field-shown branch (printing the
inherited member) instead of reporting FieldNotFound. -/
theorem c1_counterexample :
    "toString" ∉ jsKeys (.obj [("id", Json.num (.finite 1 0)), ("title", Json.str "X")]) ∧
    (mainRun rmJson ("GET" :: "products/7" :: "toString" :: [])).outs =
      [.fieldShown "toString" "7" (.inherited "toString")] :=
  ⟨by decide, rfl⟩

/-- C1 (amended): for `GET products/<id> <field>` with a structured
object fetched, the dispatcher issues exactly one call (never a second
one); when the field is one of the object's own keys, it emits exactly
`object[field]`; when the field is absent both from the own keys and
from the inherited `Object.prototype` member names, it reports
FieldNotFound naming the field and listing the object's own keys; when
the field is not an own key but names an inherited `Object.prototype`
member, the field-shown branch displays that inherited member. -/
theorem c1_field_projection (rm : Remote) (id fieldToExtract : String) (rest : List String)
    (kvs : List (String × Json))
    (hfetch : (apiRequest rm ("/" ++ ("products/" ++ id)) "GET" none).2 =
      .ok (.jsonValue (.obj kvs))) :
    (mainRun rm ("GET" :: ("products/" ++ id) :: fieldToExtract :: rest)).calls.length = 1 ∧
    (fieldToExtract ∈ jsKeys (.obj kvs) →
      (mainRun rm ("GET" :: ("products/" ++ id) :: fieldToExtract :: rest)).outs =
        [.fieldShown fieldToExtract (segGetD1 ("products/" ++ id))
          (jsGet (.obj kvs) fieldToExtract)]) ∧
    (fieldToExtract ∉ jsKeys (.obj kvs) → fieldToExtract ∉ objectProtoKeys →
      (mainRun rm ("GET" :: ("products/" ++ id) :: fieldToExtract :: rest)).outs =
        [.fieldMissing fieldToExtract (segGetD1 ("products/" ++ id)) (jsKeys (.obj kvs))]) ∧
    (fieldToExtract ∉ jsKeys (.obj kvs) → fieldToExtract ∈ objectProtoKeys →
      (mainRun rm ("GET" :: ("products/" ++ id) :: fieldToExtract :: rest)).outs =
        [.fieldShown fieldToExtract (segGetD1 ("products/" ++ id))
          (JsProp.inherited fieldToExtract)]) := by
  have hne0 : ¬ (("GET" : String) = "" ∨ "products/" ++ id = "") := by
    rintro (h | h)
    · exact absurd h (by decide)
    · exact products_slash_ne_empty id h
  have e1 : mainRun rm ("GET" :: ("products/" ++ id) :: fieldToExtract :: rest) =
      dispatch rm "GET" ("products/" ++ id) (fieldToExtract :: rest) := by
    have e0 : mainRun rm ("GET" :: ("products/" ++ id) :: fieldToExtract :: rest) =
        if ("GET" : String) = "" ∨ "products/" ++ id = "" then usage
        else dispatch rm "GET" ("products/" ++ id) (fieldToExtract :: rest) := rfl
    rw [e0, if_neg hne0]
  have hrun : mainRun rm ("GET" :: ("products/" ++ id) :: fieldToExtract :: rest) =
      { calls := [(apiRequest rm ("/" ++ ("products/" ++ id)) "GET" none).1],
        outs := [if jsIn fieldToExtract (.obj kvs) = true then
            Out.fieldShown fieldToExtract (segGetD1 ("products/" ++ id))
              (jsGet (.obj kvs) fieldToExtract)
          else
            Out.fieldMissing fieldToExtract (segGetD1 ("products/" ++ id))
              (jsKeys (.obj kvs))] } := by
    rw [e1]
    simp only [dispatch]
    rw [if_pos (show (jsToUpper "GET" : String) = "GET" by decide)]
    rw [if_neg (show ¬ ("products/" ++ id = "products" ∧ fieldToExtract :: rest = []) from
      fun hand => (List.cons_ne_nil fieldToExtract rest) hand.2)]
    rw [if_pos (jsStartsWith_products id)]
    rw [hfetch]
    simp [ApiResult.toJs, Json.truthy, Json.typeofObject]
  refine ⟨?_, ?_, ?_, ?_⟩
  · rw [hrun]
    rfl
  · intro hmem
    rw [hrun]
    rw [if_pos ((jsIn_obj_iff fieldToExtract kvs).mpr (Or.inl hmem))]
  · intro hown hproto
    rw [hrun]
    rw [if_neg (fun hc => ((jsIn_obj_iff fieldToExtract kvs).mp hc).elim hown hproto)]
  · intro hown hproto
    rw [hrun]
    rw [if_pos ((jsIn_obj_iff fieldToExtract kvs).mpr (Or.inr hproto))]
    rw [jsGet_obj_inherited fieldToExtract kvs hown hproto]

/-- Witness for C1 (amended) at a concrete input: fetching `products/7`
and projecting the present own field `title` emits exactly that
value. -/
theorem c1_witness :
    (mainRun rmJson ("GET" :: ("products/" ++ "7") :: "title" :: [])).outs =
      [.fieldShown "title" (segGetD1 ("products/" ++ "7"))
        (jsGet (.obj [("id", Json.num (.finite 1 0)), ("title", Json.str "X")]) "title")] :=
  (c1_field_projection rmJson "7" "title" []
    [("id", Json.num (.finite 1 0)), ("title", Json.str "X")] rfl).2.1 (by decide)

/-- C3: for DELETE, a `products/<id>` path is accepted exactly when the
suffix parses as an integer (JavaScript `parseInt`); a non-parsing
suffix is a validation error with no request issued, and paths not of
the `products/...` shape never issue a request either. -/
theorem c3_delete_validation (rm : Remote) (s : String) :
    (parseIntJS (segGetD1 ("products/" ++ s)) = none →
      mainRun rm ("DELETE" :: ("products/" ++ s) :: []) =
        { calls := [], outs := [.deleteIdError] }) ∧
    (parseIntJS (segGetD1 ("products/" ++ s)) ≠ none →
      (mainRun rm ("DELETE" :: ("products/" ++ s) :: [])).calls.length = 1) ∧
    (∀ path : String, jsStartsWith path "products/" = false →
      (mainRun rm ("DELETE" :: path :: [])).calls = []) := by
  have hne0 : ¬ (("DELETE" : String) = "" ∨ "products/" ++ s = "") := by
    rintro (h | h)
    · exact absurd h (by decide)
    · exact products_slash_ne_empty s h
  have e1 : mainRun rm ("DELETE" :: ("products/" ++ s) :: []) =
      dispatch rm "DELETE" ("products/" ++ s) [] := by
    have e0 : mainRun rm ("DELETE" :: ("products/" ++ s) :: []) =
        if ("DELETE" : String) = "" ∨ "products/" ++ s = "" then usage
        else dispatch rm "DELETE" ("products/" ++ s) [] := rfl
    rw [e0, if_neg hne0]
  have e2 : dispatch rm "DELETE" ("products/" ++ s) [] =
      (if segGetD1 ("products/" ++ s) = "" ∨
          parseIntJS (segGetD1 ("products/" ++ s)) = none
       then { calls := [], outs := [.deleteIdError] }
       else
        { calls := [(apiRequest rm ("/" ++ ("products/" ++ s)) "DELETE" none).1],
          outs := [match (apiRequest rm ("/" ++ ("products/" ++ s)) "DELETE" none).2 with
                   | .ok r => .productDeleted (segGetD1 ("products/" ++ s)) r.toJs
                   | .error e => .mainError e] }) := by
    simp only [dispatch]
    rw [if_neg (show ¬ (jsToUpper "DELETE" : String) = "GET" by decide)]
    rw [if_neg (show ¬ (jsToUpper "DELETE" : String) = "POST" by decide)]
    rw [if_pos (show (jsToUpper "DELETE" : String) = "DELETE" by decide)]
    rw [if_pos (jsStartsWith_products s)]
  refine ⟨?_, ?_, ?_⟩
  · intro h
    rw [e1, e2, if_pos (Or.inr h)]
  · intro h
    have hos : ¬ (segGetD1 ("products/" ++ s) = "" ∨
        parseIntJS (segGetD1 ("products/" ++ s)) = none) := by
      rintro (hc | hc)
      · exact h (by rw [hc]; exact parseIntJS_empty)
      · exact h hc
    rw [e1, e2, if_neg hos]
    rfl
  · intro path hsw
    by_cases hp : path = ""
    · subst hp
      rfl
    · have e0 : mainRun rm ("DELETE" :: path :: []) =
          if ("DELETE" : String) = "" ∨ path = "" then usage
          else dispatch rm "DELETE" path [] := rfl
      have hg : ¬ (("DELETE" : String) = "" ∨ path = "") := by
        rintro (h | h)
        · exact absurd h (by decide)
        · exact hp h
      rw [e0, if_neg hg]
      simp only [dispatch]
      rw [if_neg (show ¬ (jsToUpper "DELETE" : String) = "GET" by decide)]
      rw [if_neg (show ¬ (jsToUpper "DELETE" : String) = "POST" by decide)]
      rw [if_pos (show (jsToUpper "DELETE" : String) = "DELETE" by decide)]
      rw [if_neg (show ¬ (jsStartsWith path "products/" = true) from by
        rw [hsw]; simp)]

/-- Witness for C3 at concrete inputs: `products/seven` is rejected
with no call, `products/7` issues exactly one call, and a non-products
path issues none. -/
theorem c3_witness :
    mainRun rmPlain ("DELETE" :: ("products/" ++ "seven") :: []) =
      { calls := [], outs := [.deleteIdError] } ∧
    (mainRun rmPlain ("DELETE" :: ("products/" ++ "7") :: [])).calls.length = 1 ∧
    (mainRun rmPlain ("DELETE" :: "carts/1" :: [])).calls = [] :=
  ⟨(c3_delete_validation rmPlain "seven").1 rfl,
   (c3_delete_validation rmPlain "7").2.1 (by decide),
   (c3_delete_validation rmPlain "x").2.2 "carts/1" rfl⟩

/-- C4 counterexample: the claim says a GET path shape other than
`products` or `products/<id>` with a *non-empty* suffix yields an
invalid-route error with no request; but `GET products/` — whose suffix
after the slash is empty — satisfies the source's `startsWith`
check and issues one network call. -/
theorem c4_counterexample :
    segGetD1 "products/" = "" ∧
    (mainRun rmJson ("GET" :: "products/" :: [])).calls.length = 1 :=
  ⟨rfl, rfl⟩

/-- C4 (amended): `GET products` with no extra arguments fetches the
collection; any path that starts with `products/` — the suffix may be
empty or contain further slashes, and need not be numeric — is fetched
as a single resource with exactly one call; every other path shape is
an invalid-route error with no request. -/
theorem c4_get_routing (rm : Remote) (path : String) (args : List String) (hp : path ≠ "") :
    ((path = "products" ∧ args = []) →
      (mainRun rm ("GET" :: path :: args)).calls = [buildCall "/products" "GET" none]) ∧
    (jsStartsWith path "products/" = true →
      (mainRun rm ("GET" :: path :: args)).calls = [buildCall ("/" ++ path) "GET" none]) ∧
    (¬ (path = "products" ∧ args = []) → jsStartsWith path "products/" = false →
      mainRun rm ("GET" :: path :: args) =
        { calls := [], outs := [.invalidGetRoute path] }) := by
  have e0 : mainRun rm ("GET" :: path :: args) =
      if ("GET" : String) = "" ∨ path = "" then usage
      else dispatch rm "GET" path args := rfl
  have hg : ¬ (("GET" : String) = "" ∨ path = "") := by
    rintro (h | h)
    · exact absurd h (by decide)
    · exact hp h
  refine ⟨?_, ?_, ?_⟩
  · rintro ⟨hpp, hargs⟩
    subst hpp
    subst hargs
    rfl
  · intro hsw
    rw [e0, if_neg hg]
    simp only [dispatch]
    rw [if_pos (show (jsToUpper "GET" : String) = "GET" by decide)]
    rw [if_neg (show ¬ (path = "products" ∧ args = []) from fun hand => by
      rw [hand.1] at hsw
      exact absurd hsw (by decide))]
    rw [if_pos hsw]
    rfl
  · intro hnc hsw
    rw [e0, if_neg hg]
    simp only [dispatch]
    rw [if_pos (show (jsToUpper "GET" : String) = "GET" by decide)]
    rw [if_neg hnc]
    rw [if_neg (show ¬ (jsStartsWith path "products/" = true) from by
      rw [hsw]; simp)]

/-- Witness for C4 (amended) at a concrete input: `GET products/` —
empty suffix — is fetched as a single resource with one call. -/
theorem c4_witness :
    (mainRun rmJson ("GET" :: "products/" :: [])).calls =
      [buildCall ("/" ++ "products/") "GET" none] :=
  (c4_get_routing rmJson "products/" [] (by decide)).2.1 rfl

/-- Reduction of the POST branch: with path `products` and at least
three arguments, the dispatcher either rejects a NaN price with no call
or issues the one creation call carrying the assembled payload. -/
theorem dispatch_post_products (rm : Remote) (t pr cat : String) (tail : List String) :
    dispatch rm "POST" "products" (t :: pr :: cat :: tail) =
      (if (parseFloatJS pr).isNaN = true then
        { calls := [], outs := [.priceError] }
       else
        { calls := [(apiRequest rm ("/" ++ "products") "POST" (some (Json.obj
            [("title", .str t), ("price", .num (parseFloatJS pr)), ("category", .str cat),
             ("description", .str (jsOrStr (tail.get? 0) DEFAULT_DESCRIPTION)),
             ("image", .str (jsOrStr (tail.get? 1) DEFAULT_IMAGE))]))).1],
          outs := [match (apiRequest rm ("/" ++ "products") "POST" (some (Json.obj
              [("title", .str t), ("price", .num (parseFloatJS pr)), ("category", .str cat),
               ("description", .str (jsOrStr (tail.get? 0) DEFAULT_DESCRIPTION)),
               ("image", .str (jsOrStr (tail.get? 1) DEFAULT_IMAGE))]))).2 with
            | .ok r => .productCreated r.toJs
            | .error e => .mainError e] }) := by
  simp only [dispatch]
  rw [if_neg (show ¬ (jsToUpper "POST" : String) = "GET" by decide)]
  rw [if_pos (show (jsToUpper "POST" : String) = "POST" by decide)]
  rw [if_pos trivial]
  rw [if_neg (show ¬ ((t :: pr :: cat :: tail).length < 3) from by
    simp only [List.length_cons]
    omega)]
  rfl

/-- C2 counterexample: the claim requires the price to parse as a
*finite* number, with everything else rejected before any network call;
but `POST products T Infinity cat` parses to a non-finite, non-NaN
price, passes the source's `isNaN` check, and issues one network
call. -/
theorem c2_counterexample :
    (parseFloatJS "Infinity").isFinite = false ∧
    (mainRun rmJson ("POST" :: "products" :: "T" :: "Infinity" :: "cat" :: [])).calls.length
      = 1 :=
  ⟨rfl, rfl⟩

/-- C2 (amended): for `POST products` with at least three extra
arguments, the price must parse as a number: exactly when `parseFloat`
yields NaN is a validation error reported with no request issued
(non-finite values such as `Infinity` are accepted). -/
theorem c2_price_nan_rejected (rm : Remote) (t pr cat : String) (tail : List String) :
    (parseFloatJS pr = .nan →
      mainRun rm ("POST" :: "products" :: t :: pr :: cat :: tail) =
        { calls := [], outs := [.priceError] }) ∧
    (parseFloatJS pr ≠ .nan →
      (mainRun rm ("POST" :: "products" :: t :: pr :: cat :: tail)).calls.length = 1) := by
  have e1 : mainRun rm ("POST" :: "products" :: t :: pr :: cat :: tail) =
      dispatch rm "POST" "products" (t :: pr :: cat :: tail) := by
    have e0 : mainRun rm ("POST" :: "products" :: t :: pr :: cat :: tail) =
        if ("POST" : String) = "" ∨ ("products" : String) = "" then usage
        else dispatch rm "POST" "products" (t :: pr :: cat :: tail) := rfl
    rw [e0, if_neg (by rintro (h | h) <;> exact absurd h (by decide))]
  constructor
  · intro h
    rw [e1, dispatch_post_products, if_pos (show (parseFloatJS pr).isNaN = true from by
      rw [h]
      rfl)]
  · intro h
    rw [e1, dispatch_post_products,
      if_neg (fun hc => h ((jsNum_isNaN_iff (parseFloatJS pr)).mp hc))]
    rfl

/-- Witness for C2 (amended) at a concrete input: `abc` parses to NaN,
so the command is rejected with no call. -/
theorem c2_witness :
    mainRun rmJson ("POST" :: "products" :: "T" :: "abc" :: "cat" :: []) =
      { calls := [], outs := [.priceError] } :=
  (c2_price_nan_rejected rmJson "T" "abc" "cat" []).1 rfl

/-- C5 counterexample: the claim says the fourth extra argument, when
present, is used as the payload's description, the default being
substituted exactly when the argument is absent; but with the fourth
argument present and equal to the empty string, the source's `||`
defaulting substitutes the default literal anyway. -/
theorem c5_counterexample :
    (mainRun rmJson ("POST" :: "products" :: "T" :: "1" :: "cat" :: "" :: [])).calls.map
        HttpCall.body =
      [some (Json.obj
        [("title", .str "T"), ("price", .num (.finite 1 0)), ("category", .str "cat"),
         ("description", .str "Default product description"),
         ("image", .str "https://calculo-intereses.onrender.com")])] ∧
    DEFAULT_DESCRIPTION ≠ "" :=
  ⟨rfl, by decide⟩

/-- C5 (amended): for `POST products` with a valid price, the fourth
and fifth extra arguments are used as the payload's description and
image when present and non-empty; the fixed default literals are
substituted exactly when the argument is absent or is the empty string
(JavaScript `||` falsiness). -/
theorem c5_defaults (rm : Remote) (t pr cat : String) (tail : List String)
    (h : (parseFloatJS pr).isNaN = false) :
    (mainRun rm ("POST" :: "products" :: t :: pr :: cat :: tail)).calls =
      [buildCall ("/" ++ "products") "POST" (some (Json.obj
        [("title", .str t), ("price", .num (parseFloatJS pr)), ("category", .str cat),
         ("description", .str (jsOrStr (tail.get? 0) DEFAULT_DESCRIPTION)),
         ("image", .str (jsOrStr (tail.get? 1) DEFAULT_IMAGE))]))] := by
  have e1 : mainRun rm ("POST" :: "products" :: t :: pr :: cat :: tail) =
      dispatch rm "POST" "products" (t :: pr :: cat :: tail) := by
    have e0 : mainRun rm ("POST" :: "products" :: t :: pr :: cat :: tail) =
        if ("POST" : String) = "" ∨ ("products" : String) = "" then usage
        else dispatch rm "POST" "products" (t :: pr :: cat :: tail) := rfl
    rw [e0, if_neg (by rintro (hx | hx) <;> exact absurd hx (by decide))]
  rw [e1, dispatch_post_products, if_neg (fun hc => by
    rw [h] at hc
    exact absurd hc (by decide))]
  rfl

/-- Witness for C5 (amended) at a concrete input: with the fourth
argument empty and the fifth present, the description falls back to the
default literal while the image uses the supplied value. -/
theorem c5_witness :
    (mainRun rmJson ("POST" :: "products" :: "T" :: "1" :: "cat" :: ("" :: "img" :: []))).calls =
      [buildCall ("/" ++ "products") "POST" (some (Json.obj
        [("title", .str "T"), ("price", .num (.finite 1 0)), ("category", .str "cat"),
         ("description", .str "Default product description"),
         ("image", .str "img")]))] :=
  c5_defaults rmJson "T" "1" "cat" ("" :: "img" :: []) rfl

/-- C8: with both tokens present and non-empty, the dispatcher issues
exactly one network call when the verb and path are accepted
(`wellFormed` collects the acceptance guards of the source's branches)
and zero network calls in every invalid-route, validation, or
unrecognized-verb case. -/
theorem c8_one_call_per_invocation (rm : Remote) (c p : String) (args : List String)
    (hc : c ≠ "") (hp : p ≠ "") :
    (mainRun rm (c :: p :: args)).calls.length =
      (if wellFormed c p args then 1 else 0) := by
  have e0 : mainRun rm (c :: p :: args) =
      if c = "" ∨ p = "" then usage else dispatch rm c p args := rfl
  rw [e0, if_neg (by rintro (h | h); exacts [hc h, hp h])]
  simp only [dispatch, wellFormed]
  split_ifs <;> simp_all

/-- Witness for C8 at a concrete input: `GET products` is well-formed
and issues exactly one call. -/
theorem c8_witness :
    (mainRun rmJson ("GET" :: "products" :: [])).calls.length =
      (if wellFormed "GET" "products" [] then 1 else 0) :=
  c8_one_call_per_invocation rmJson "GET" "products" [] (by decide) (by decide)
